import Mathlib

/-!
Verification of the shipping-cost resolution engine of the qrm-chatbot-api
repository (`src/services.py`, `src/services_async.py`), shallowly embedded
in Lean 4.

Modelling conventions:
* Python floats are modelled by exact unnormalized fractions (`Frac`,
  an integer numerator over a natural denominator); every value produced
  by the program is a decimal, so this is exact.  `Frac.val : ℚ` gives
  the denoted rational for reasoning.
* Python exceptions (`ValueError`, `NameError`) are modelled by
  `Except Unit`; `None` is modelled by `Option`.
* String primitives (strip, single-character replace, substring test)
  are implemented over `List Char` by structural recursion so that all
  definitions evaluate inside the kernel.
-/

deriving instance DecidableEq for Except

namespace Shipping

/-! ### Exact decimal arithmetic -/

/-- Unnormalized fraction `num / den`.  All fractions built by the
embedded program have a positive denominator. -/
structure Frac where
  num : ℤ
  den : ℕ
deriving DecidableEq

/-- The rational value denoted by a fraction. -/
def Frac.val (a : Frac) : ℚ := (a.num : ℚ) / (a.den : ℚ)

/-- Embed an integer. -/
def Frac.ofInt (n : ℤ) : Frac := ⟨n, 1⟩

/-- Product of fractions. -/
def Frac.mul (a b : Frac) : Frac := ⟨a.num * b.num, a.den * b.den⟩

/-- Division by 100, as in `(cart_total * percentage) / 100`. -/
def Frac.div100 (a : Frac) : Frac := ⟨a.num, a.den * 100⟩

/-- Strict comparison (`a < b`), valid when denominators are positive. -/
def Frac.blt (a b : Frac) : Bool := a.num * (b.den : ℤ) < b.num * (a.den : ℤ)

/-! ### String primitives -/

/-- Model of Python `s.strip()`: drop whitespace from both ends. -/
def pyStrip (l : List Char) : List Char :=
  ((l.dropWhile Char.isWhitespace).reverse.dropWhile Char.isWhitespace).reverse

/-- Model of Python `s.replace(c, "")` for a one-character pattern:
remove every occurrence of the character. -/
def removeChar (c : Char) (l : List Char) : List Char :=
  l.filter (fun x => x ≠ c)

/-- Substring test: models Python's `needle in hay` on strings. -/
def listContainsSub (pat : List Char) : List Char → Bool
  | [] => pat.isEmpty
  | c :: rest => pat.isPrefixOf (c :: rest) || listContainsSub pat rest

/-- `containsSub needle hay` = Python `needle in hay`. -/
def containsSub (needle hay : String) : Bool :=
  listContainsSub needle.toList hay.toList

/-- Value of a list of decimal digit characters. -/
def digitsVal (l : List Char) : ℕ :=
  l.foldl (fun a c => 10 * a + (c.toNat - 48)) 0

/-- Model of Python `float(s)` on the decimal strings that occur in this
program: optional surrounding whitespace, optional sign, digits with an
optional single decimal point (at least one digit overall).  Exponent,
`inf` and `nan` forms do not occur in the cost data and are not modelled.
`none` models `float` raising `ValueError`. -/
def pyFloat? (s : String) : Option Frac :=
  let cs := pyStrip s.toList
  let signed : ℤ × List Char :=
    match cs with
    | '-' :: r => (-1, r)
    | '+' :: r => (1, r)
    | _ => (1, cs)
  let sign := signed.1
  let body := signed.2
  let ip := body.takeWhile Char.isDigit
  let rest := body.dropWhile Char.isDigit
  match rest with
  | [] => if ip.isEmpty then none else some ⟨sign * digitsVal ip, 1⟩
  | '.' :: r =>
    let fp := r.takeWhile Char.isDigit
    let rest2 := r.dropWhile Char.isDigit
    if rest2.isEmpty then
      if ip.isEmpty && fp.isEmpty then none
      else some ⟨sign * (digitsVal ip * 10 ^ fp.length + digitsVal fp), 10 ^ fp.length⟩
    else none
  | _ => none

/-- Model of Python `int(s)`: optional whitespace, optional sign, digits.
`none` models `ValueError`. -/
def pyInt? (s : String) : Option ℤ :=
  let cs := pyStrip s.toList
  let signed : ℤ × List Char :=
    match cs with
    | '-' :: r => (-1, r)
    | '+' :: r => (1, r)
    | _ => (1, cs)
  if signed.2.isEmpty then none
  else if signed.2.all Char.isDigit then some (signed.1 * digitsVal signed.2)
  else none

/-- Round `n / d` (for `d > 0`) to the nearest integer, ties to even:
the rounding used by Python string formatting for exact values. -/
def roundHalfEvenInt (n : ℤ) (d : ℕ) : ℤ :=
  let f := Int.fdiv n d
  let twice := 2 * (n - f * d)
  if twice < (d : ℤ) then f
  else if (d : ℤ) < twice then f + 1
  else if f % 2 = 0 then f else f + 1

/-- Model of Python `f"{q:.2f}"` on exact decimal values. -/
def format2f (a : Frac) : String :=
  let cents := roundHalfEvenInt (a.num * 100) a.den
  let sign := if cents < 0 then "-" else ""
  let n := cents.natAbs
  sign ++ toString (n / 100) ++ "." ++ (if n % 100 < 10 then "0" else "") ++ toString (n % 100)

/-- Model of Python `f"${q:.2f}"`. -/
def formatDollar (a : Frac) : String := "$" ++ format2f a

/-! ### The cost-expression evaluator -/

/-- Rest of the haystack after the first occurrence of `pat`, if any
(helper for the attribute regexes in `_calculate_shipping_cost`). -/
def findSubAfter (pat : List Char) : List Char → Option (List Char)
  | [] => if pat.isEmpty then some [] else none
  | c :: rest =>
    if pat.isPrefixOf (c :: rest) then some ((c :: rest).drop pat.length)
    else findSubAfter pat rest

/-- Model of the attribute regexes on fee strings, as in
`re.search` for a pattern of the shape `key="([^"]+)"`: the non-empty run
of non-quote characters after the first occurrence of `key="`, provided it
is closed by a quote. -/
def findAttr (s : String) (key : String) : Option String :=
  match findSubAfter (key ++ "=\"").toList s.toList with
  | none => none
  | some rest =>
    let content := rest.takeWhile (fun c => c ≠ '"')
    let after := rest.dropWhile (fun c => c ≠ '"')
    if content.isEmpty then none
    else match after with
      | '"' :: _ => some (String.mk content)
      | _ => none

/-- The `%`-percentage and plain-fixed tail of `_calculate_shipping_cost`
(services.py lines 601-617), reached when the bracketed-fee form does not
apply.  `.error ()` models `float` raising `ValueError`. -/
def calcPercentOrFixed (cost_str : String) (cart_total : Option Frac) : Except Unit String :=
  if containsSub "%" cost_str then
    match cart_total with
    | none => Except.ok "Calculated at checkout"
    | some t =>
      match pyFloat? (String.mk (removeChar '%' cost_str.toList)) with
      | none => Except.error ()
      | some percentage => Except.ok (formatDollar (t.mul percentage).div100)
  else
    match pyFloat? (String.mk (removeChar ',' (removeChar '$' cost_str.toList))) with
    | some v => Except.ok (formatDollar v)
    | none => Except.ok cost_str

/-- `KnowledgeBaseService._calculate_shipping_cost` (services.py lines
571-617).  `cart_total = none` models the Python default `None`; an
`Except.error` models an uncaught `ValueError` escaping the method. -/
def calculate_shipping_cost (cost_str : String) (cart_total : Option Frac) : Except Unit String :=
  if cost_str = "" ∨ cost_str = "0" then Except.ok "$0.00"
  else if "[fee ".toList.isPrefixOf cost_str.toList && "]".toList.isSuffixOf cost_str.toList then
    match findAttr cost_str "percent" with
    | some pstr =>
      match pyFloat? pstr with
      | none => Except.error ()
      | some percentage =>
        match (match findAttr cost_str "min_fee" with
               | some s => (pyFloat? s).map (fun v => some v)
               | none => some (some (Frac.ofInt 0))) with
        | none => Except.error ()
        | some none => Except.error ()
        | some (some min_fee) =>
          match (match findAttr cost_str "max_fee" with
                 | some s => (pyFloat? s).map (fun v => some v)
                 | none => some (none : Option Frac)) with
          | none => Except.error ()
          | some max_fee =>
            match cart_total with
            | none =>
              Except.ok (match max_fee with
                | some mx => formatDollar min_fee ++ " - " ++ formatDollar mx
                | none => "From " ++ formatDollar min_fee)
            | some t =>
              let c1 := (t.mul percentage).div100
              let c2 := if min_fee.blt c1 then c1 else min_fee
              let c3 := match max_fee with
                | some mx => if c2.blt mx then c2 else mx
                | none => c2
              Except.ok (formatDollar c3)
    | none => calcPercentOrFixed cost_str cart_total
  else calcPercentOrFixed cost_str cart_total

/-- First maximal run of characters in `[0-9.]`, models the first match of
`re.findall` for the digits-and-dots pattern. -/
def firstNumRun : List Char → Option (List Char)
  | [] => none
  | c :: rest =>
    if c.isDigit || c = '.' then
      some ((c :: rest).takeWhile (fun ch => ch.isDigit || ch = '.'))
    else firstNumRun rest

/-- `KnowledgeBaseService._extract_numeric_cost` (services.py lines
619-640).  The surrounding `try` swallows `ValueError`, hence the `0`
fallbacks where the parse fails. -/
def extract_numeric_cost (cost_str : String) : Frac :=
  if cost_str = "" ∨ cost_str = "0" then Frac.ofInt 0
  else
    let cleaned := pyStrip (removeChar ',' (removeChar '$' cost_str.toList))
    let nodots := removeChar '.' cleaned
    if ¬ nodots.isEmpty ∧ nodots.all Char.isDigit then
      match pyFloat? (String.mk cleaned) with
      | some v => v
      | none => Frac.ofInt 0
    else
      match firstNumRun cleaned with
      | some tok =>
        match pyFloat? (String.mk tok) with
        | some v => v
        | none => Frac.ofInt 0
      | none => Frac.ofInt 0

/-! ### Zone location data

The `locations` column of a zone stores a JSON array of flat objects with
string keys and string values (`[{"type": "postcode", "code": "3011"}]`).
`parseLocations` models `json.loads` on this shape; `none` models both a
`json.JSONDecodeError` and the `AttributeError` that the source would hit
(and catch alongside it) when the decoded value is not a list of dicts. -/

/-- Skip JSON whitespace. -/
def skipWs (l : List Char) : List Char :=
  l.dropWhile (fun c => c = ' ' || c = '\t' || c = '\n' || c = '\r')

/-- Parse a JSON string literal without escape sequences. -/
def parseJString : List Char → Option (String × List Char)
  | '"' :: rest =>
    let content := rest.takeWhile (fun c => c ≠ '"' && c ≠ '\\')
    match rest.dropWhile (fun c => c ≠ '"' && c ≠ '\\') with
    | '"' :: r => some (String.mk content, r)
    | _ => none
  | _ => none

/-- Parse the members of a JSON object (after the opening brace, at least
one member).  Fuel-driven recursion; the fuel is the input length. -/
def parsePairs : ℕ → List Char → Option (List (String × String) × List Char)
  | 0, _ => none
  | fuel + 1, l =>
    match parseJString (skipWs l) with
    | none => none
    | some (k, r1) =>
      match skipWs r1 with
      | ':' :: r2 =>
        match parseJString (skipWs r2) with
        | none => none
        | some (v, r3) =>
          match skipWs r3 with
          | ',' :: r4 =>
            match parsePairs fuel r4 with
            | some (ps, rest) => some ((k, v) :: ps, rest)
            | none => none
          | '}' :: r4 => some ([(k, v)], r4)
          | _ => none
      | _ => none

/-- Parse one JSON object of string pairs. -/
def parseObj (fuel : ℕ) (l : List Char) : Option (List (String × String) × List Char) :=
  match l with
  | '{' :: r =>
    match skipWs r with
    | '}' :: r2 => some ([], r2)
    | _ => parsePairs fuel r
  | _ => none

/-- Parse the comma-separated objects of a JSON array (at least one). -/
def parseItems : ℕ → List Char → Option (List (List (String × String)) × List Char)
  | 0, _ => none
  | fuel + 1, l =>
    match parseObj fuel (skipWs l) with
    | none => none
    | some (o, r1) =>
      match skipWs r1 with
      | ',' :: r2 => (parseItems fuel r2).map (fun p => (o :: p.1, p.2))
      | ']' :: r2 => some ([o], r2)
      | _ => none

/-- Model of `json.loads` on a zone's `locations` column (see above). -/
def parseLocations (s : String) : Option (List (List (String × String))) :=
  match skipWs s.toList with
  | '[' :: r =>
    match skipWs r with
    | ']' :: r2 => if (skipWs r2).isEmpty then some [] else none
    | _ =>
      match parseItems (s.toList.length + 1) r with
      | some (os, rest) => if (skipWs rest).isEmpty then some os else none
      | none => none
  | _ => none

/-- Model of `dict.get(k)` on a decoded JSON object. -/
def dictGet (d : List (String × String)) (k : String) : Option String :=
  (d.find? (fun p => p.1 == k)).map (fun p => p.2)

/-- Model of `dict.get(k, default)`. -/
def dictGetD (d : List (String × String)) (k dflt : String) : String :=
  (dictGet d k).getD dflt

/-! ### The geo matcher -/

/-- Membership of an integer in a union of half-open ranges: models
Python `n in range(a, b)` and membership in explicit postcode lists
(encoded here as unions of singleton ranges). -/
def inAnyRange (n : ℤ) (rs : List (ℤ × ℤ)) : Bool :=
  rs.any (fun p => decide (p.1 ≤ n ∧ n < p.2))

/-- The `postcode_ranges` table of `_is_postcode_in_location`
(services.py lines 442-485): Australian state/territory postcode ranges. -/
def postcode_ranges : List (String × List (ℤ × ℤ)) :=
  [ ("AU:VIC", [(3000, 4000)]), ("VIC", [(3000, 4000)]), ("VICTORIA", [(3000, 4000)]),
    ("AU:NSW", [(1000, 3000), (2000, 3000)]), ("NSW", [(1000, 3000), (2000, 3000)]),
    ("NEW SOUTH WALES", [(1000, 3000), (2000, 3000)]),
    ("AU:QLD", [(4000, 5000)]), ("QLD", [(4000, 5000)]), ("QUEENSLAND", [(4000, 5000)]),
    ("AU:SA", [(5000, 6000)]), ("SA", [(5000, 6000)]), ("SOUTH AUSTRALIA", [(5000, 6000)]),
    ("AU:WA", [(6000, 7000)]), ("WA", [(6000, 7000)]), ("WESTERN AUSTRALIA", [(6000, 7000)]),
    ("AU:TAS", [(7000, 8000)]), ("TAS", [(7000, 8000)]), ("TASMANIA", [(7000, 8000)]),
    ("AU:NT", [(800, 900), (900, 1000)]), ("NT", [(800, 900), (900, 1000)]),
    ("NORTHERN TERRITORY", [(800, 900), (900, 1000)]),
    ("AU:ACT", [(200, 300), (2600, 2700)]), ("ACT", [(200, 300), (2600, 2700)]),
    ("AUSTRALIAN CAPITAL TERRITORY", [(200, 300), (2600, 2700)]) ]

/-- The `city_ranges` table of `_is_postcode_in_location`
(services.py lines 487-528): major-city postcode ranges; explicit lists
such as `FOOTSCRAY = [3011, 3012]` are encoded as singleton ranges. -/
def city_ranges : List (String × List (ℤ × ℤ)) :=
  [ ("MELBOURNE", [(3000, 3200)]), ("MELBOURNE METRO", [(3000, 3200)]),
    ("MELBOURNE CBD", [(3000, 3007)]),
    ("FOOTSCRAY", [(3011, 3012), (3012, 3013)]), ("VIRGINIA", [(4014, 4015)]),
    ("SYDNEY", [(1000, 1400), (2000, 2300)]), ("SYDNEY METRO", [(1000, 1400), (2000, 2300)]),
    ("SYDNEY CBD", [(2000, 2010)]),
    ("BRISBANE", [(4000, 4200)]), ("BRISBANE METRO", [(4000, 4200)]),
    ("BRISBANE CBD", [(4000, 4010)]), ("BEENLEIGH", [(4207, 4210)]),
    ("GOLD COAST", [(4200, 4230)]), ("SUNSHINE COAST", [(4550, 4580)]),
    ("ADELAIDE", [(5000, 5200)]), ("ADELAIDE METRO", [(5000, 5200)]),
    ("PERTH", [(6000, 6200)]), ("PERTH METRO", [(6000, 6200)]),
    ("HOBART", [(7000, 7100)]), ("HOBART METRO", [(7000, 7100)]),
    ("WOLLONGONG", [(2500, 2530)]), ("WOOLLOONGONG", [(2500, 2530)]) ]

/-- Lookup in one of the range tables: models `code in table` plus
`table[code]`. -/
def tableLookup (t : List (String × List (ℤ × ℤ))) (code : String) : Option (List (ℤ × ℤ)) :=
  (t.find? (fun p => p.1 == code)).map (fun p => p.2)

/-- `KnowledgeBaseService._is_postcode_in_location` (services.py lines
437-552).  The source also reads `location.get("type", "")` into a local
that is never used afterwards.  When the code is found in neither table,
the source executes `zone_name = getattr(zone, 'name', '').upper()` —
but `zone` is not bound in that function, so reaching that line raises
`NameError`, modelled by `.error ()` (the radius heuristic below it is
unreachable). -/
def is_postcode_in_location (postcode : String) (location : List (String × String)) : Except Unit Bool :=
  let code := String.mk ((dictGetD location "code" "").toList.map Char.toUpper)
  match pyInt? postcode with
  | none => Except.ok false
  | some n =>
    match tableLookup postcode_ranges code with
    | some rs => Except.ok (inAnyRange n rs)
    | none =>
      match tableLookup city_ranges code with
      | some rs => Except.ok (inAnyRange n rs)
      | none => Except.error ()

/-- `settings["cost"]` of a shipping method, as decoded from its settings
blob by the collaborator `json.loads`: either absent, a WooCommerce
settings object holding the raw string under `"value"`, or a direct
value (already carried through `str`). -/
inductive CostSetting where
  | absent : CostSetting
  | obj : Option String → CostSetting
  | direct : String → CostSetting
deriving DecidableEq

/-- A `ShippingMethod` row together with its associated null-class
`ShippingClassRate` row: `no_class_rate = some c` models a rate row whose
`cost` column is `c` (`some none` a rate row with NULL cost). -/
structure Method where
  method_id : String
  title : String
  enabled : Bool
  cost_setting : CostSetting
  no_class_rate : Option (Option String)
deriving DecidableEq

/-- A `ShippingZone` row (site-scoped) with its methods. -/
structure Zone where
  locations : Option String
  name : String
  methods : List Method
deriving DecidableEq

/-- The per-location loop inside `_postcode_matches_zone` (services.py
lines 424-431). -/
def matchLocations (customer_postcode : String) : List (List (String × String)) → Except Unit Bool
  | [] => Except.ok false
  | location :: rest =>
    if dictGet location "type" = some "postcode" ∧ dictGet location "code" = some customer_postcode then
      Except.ok true
    else if dictGet location "type" = some "state" ∨ dictGet location "type" = some "city" ∨
            dictGet location "type" = some "region" then
      match is_postcode_in_location customer_postcode location with
      | Except.error e => Except.error e
      | Except.ok true => Except.ok true
      | Except.ok false => matchLocations customer_postcode rest
    else matchLocations customer_postcode rest

/-- `KnowledgeBaseService._postcode_matches_zone` (services.py lines
418-435, the synchronous service).  A failed `json.loads` is caught by
the `except (json.JSONDecodeError, AttributeError)` clause and yields
`False`. -/
def postcode_matches_zone (customer_postcode : String) (zone : Zone) : Except Unit Bool :=
  match zone.locations with
  | none => Except.ok false
  | some locs =>
    if locs = "" ∨ pyStrip locs.toList = [] then Except.ok false
    else
      match parseLocations locs with
      | none => Except.ok false
      | some locations => matchLocations customer_postcode locations

/-- `KnowledgeBaseService._postcode_matches_zone` of the async service
(services_async.py lines 248-260): returns `True` for empty locations,
`True` after a successful parse (the matching logic is a placeholder),
and `True` from its bare `except`. -/
def async_postcode_matches_zone (postcode : String) (locations : Option String) : Bool :=
  match locations with
  | none => true
  | some l =>
    if l = "" then true
    else
      match parseLocations l with
      | some _ => true
      | none => true

/-! ### The quote assembler -/

/-- One element of the `shipping_options` list built by
`get_shipping_options` (services.py lines 359-366). -/
structure Quote where
  method_id : String
  title : String
  cost : String
  cost_type : String
  raw_cost : String
  description : String
deriving DecidableEq

/-- The cost-string selection of `get_shipping_options` (services.py
lines 327-347): the settings `cost` field (object form via `"value"`,
else direct, else `"0"`), overridden by a no-class rate row whose cost is
truthy. -/
def methodCostValue (m : Method) : String :=
  let cost_value := match m.cost_setting with
    | CostSetting.obj v => v.getD "0"
    | CostSetting.direct s => s
    | CostSetting.absent => "0"
  match m.no_class_rate with
  | some (some c) => if c ≠ "" then c else cost_value
  | _ => cost_value

/-- The per-method body of `get_shipping_options` (services.py lines
324-366): build one quote for an enabled method. -/
def methodQuote (cart_total : Option Frac) (m : Method) : Except Unit Quote :=
  let cost_value := methodCostValue m
  match calculate_shipping_cost cost_value cart_total with
  | Except.error e => Except.error e
  | Except.ok calculated =>
    Except.ok
      { method_id := m.method_id, title := m.title, cost := calculated,
        cost_type := if containsSub "%" cost_value || containsSub "percent" cost_value
                     then "percentage" else "fixed",
        raw_cost := cost_value, description := m.title }

/-- Quotes for the enabled methods of one zone, in stored order. -/
def quotesForMethods (cart_total : Option Frac) : List Method → Except Unit (List Quote)
  | [] => Except.ok []
  | m :: ms =>
    match methodQuote cart_total m with
    | Except.error e => Except.error e
    | Except.ok q =>
      match quotesForMethods cart_total ms with
      | Except.error e => Except.error e
      | Except.ok qs => Except.ok (q :: qs)

/-- The zone loop of `get_shipping_options` (services.py lines 320-366);
the method query filters by `enabled=True`. -/
def quotesForZones (cart_total : Option Frac) : List Zone → Except Unit (List Quote)
  | [] => Except.ok []
  | z :: zs =>
    match quotesForMethods cart_total (z.methods.filter (fun m => m.enabled)) with
    | Except.error e => Except.error e
    | Except.ok qs =>
      match quotesForZones cart_total zs with
      | Except.error e => Except.error e
      | Except.ok rest => Except.ok (qs ++ rest)

/-- The matching loop of the zone filter (services.py lines 311-314). -/
def zonesMatching (pc : String) : List Zone → Except Unit (List Zone)
  | [] => Except.ok []
  | z :: zs =>
    match postcode_matches_zone pc z with
    | Except.error e => Except.error e
    | Except.ok b =>
      match zonesMatching pc zs with
      | Except.error e => Except.error e
      | Except.ok rest => Except.ok (if b then z :: rest else rest)

/-- The zone filter of `get_shipping_options` (services.py lines
309-318): keep postcode-matching zones, falling back to all zones when
none match.  A falsy (empty) postcode skips filtering, as does `None`. -/
def filterZones (customer_postcode : Option String) (zones : List Zone) : Except Unit (List Zone) :=
  match customer_postcode with
  | none => Except.ok zones
  | some pc =>
    if pc = "" then Except.ok zones
    else
      match zonesMatching pc zones with
      | Except.error e => Except.error e
      | Except.ok matching => Except.ok (if matching.isEmpty then zones else matching)

/-- `KnowledgeBaseService.get_shipping_options` (services.py lines
297-368) after the site and zone lookups: the zone filter followed by
quote assembly over the remaining zones. -/
def get_shipping_options (zones : List Zone) (cart_total : Option Frac)
    (customer_postcode : Option String) : Except Unit (List Quote) :=
  match filterZones customer_postcode zones with
  | Except.error e => Except.error e
  | Except.ok zs => quotesForZones cart_total zs

/-! ### Class-rate overrides -/

/-- The max-rate loop of `get_shipping_options_for_products`
(services.py lines 284-293): fold the evaluated class rates, keeping the
largest extracted numeric value.  Each list entry is the `cost` column of
one matching `ShippingClassRate` row (`none` for NULL). -/
def max_class_cost (rates : List (Option String)) (cart_total : Option Frac) (acc : Frac) :
    Except Unit Frac :=
  match rates with
  | [] => Except.ok acc
  | r :: rest =>
    match r with
    | some c =>
      if c ≠ "" then
        match calculate_shipping_cost c cart_total with
        | Except.error e => Except.error e
        | Except.ok cost =>
          let v := extract_numeric_cost cost
          max_class_cost rest cart_total (if acc.blt v then v else acc)
      else max_class_cost rest cart_total acc
    | none => max_class_cost rest cart_total acc

/-- The class-rate override block of `get_shipping_options_for_products`
(services.py lines 275-295): when matching class-rate rows exist and the
maximal evaluated value is positive, the quote's cost is replaced by the
formatted maximum and its type becomes `class_based`. -/
def apply_class_rates (opt : Quote) (class_rates : List (Option String))
    (cart_total : Option Frac) : Except Unit Quote :=
  if class_rates.isEmpty then Except.ok opt
  else
    match max_class_cost class_rates cart_total (Frac.ofInt 0) with
    | Except.error e => Except.error e
    | Except.ok max_cost =>
      Except.ok (if (Frac.ofInt 0).blt max_cost then
              { opt with cost := formatDollar max_cost, cost_type := "class_based" }
            else opt)

/-! ### The async default shipping options (services_async.py) -/

/-- Like `findAttr`, but for the digits-only attribute regexes of
`_extract_fee_range` (pattern shape: key, `="`, one or more digits,
`"`). -/
def findDigitsAttr (s : String) (key : String) : Option String :=
  match findSubAfter (key ++ "=\"").toList s.toList with
  | none => none
  | some rest =>
    let content := rest.takeWhile Char.isDigit
    let after := rest.drop content.length
    if content.isEmpty then none
    else match after with
      | '"' :: _ => some (String.mk content)
      | _ => none

/-- `ChatService._extract_fee_range` (services_async.py lines 881-891). -/
def extract_fee_range (fee_string : String) : String :=
  match findDigitsAttr fee_string "min_fee", findDigitsAttr fee_string "max_fee" with
  | some mn, some mx => "$" ++ mn ++ ".00 - $" ++ mx ++ ".00"
  | some mn, none => "$" ++ mn ++ ".00+"
  | none, _ => "Variable"

/-- A `ShippingMethod` row as read by the async
`_get_default_shipping_options`: `title = ""` models a falsy title and
`cost` carries `settings.get("cost", "0")`. -/
structure AsyncMethod where
  method_id : String
  title : String
  method_title : String
  enabled : Bool
  cost : String
deriving DecidableEq

/-- A zone with its methods, as loaded by the async service. -/
structure AsyncZone where
  locations : Option String
  methods : List AsyncMethod
deriving DecidableEq

/-- The per-method body of `_get_default_shipping_options`
(services_async.py lines 853-873). -/
def async_default_option (m : AsyncMethod) : Quote :=
  let cost := m.cost
  let ctd : String × String :=
    if containsSub "[fee" cost then ("percentage", extract_fee_range cost)
    else if cost ≠ "" ∧ cost ≠ "0" then ("fixed", "$" ++ cost)
    else ("fixed", "$0.00")
  { method_id := m.method_id,
    title := if m.title ≠ "" then m.title else m.method_title,
    cost := ctd.2, cost_type := ctd.1, raw_cost := cost,
    description := if m.title ≠ "" then m.title else m.method_title }

/-- `ChatService._get_default_shipping_options` (services_async.py lines
824-879) after the site/zone queries: the first three zones, their
enabled methods only (`if not method.enabled: continue`). -/
def async_default_shipping_options (zones : List AsyncZone) : List Quote :=
  ((zones.take 3).map
    (fun z => (z.methods.filter (fun m => m.enabled)).map async_default_option)).flatten

/-! ### Bridge lemmas -/

/-- For fractions with positive denominators, `blt` agrees with the
denoted strict order. -/
theorem Frac.blt_iff (a b : Frac) (ha : 0 < a.den) (hb : 0 < b.den) :
    a.blt b = true ↔ a.val < b.val := by
  unfold Frac.blt Frac.val
  rw [decide_eq_true_eq,
    div_lt_div_iff (by exact_mod_cast ha) (by exact_mod_cast hb)]
  exact_mod_cast Iff.rfl

/-- Every fraction produced by `pyFloat?` has a positive denominator. -/
theorem pyFloat?_den_pos (s : String) (q : Frac) (h : pyFloat? s = some q) : 0 < q.den := by
  unfold pyFloat? at h
  dsimp only at h
  split at h
  · split at h
    · exact absurd h (by simp)
    · simp only [Option.some.injEq] at h
      subst h
      exact Nat.one_pos
  · split at h
    · split at h
      · exact absurd h (by simp)
      · simp only [Option.some.injEq] at h
        subst h
        exact Nat.pos_pow_of_pos _ (by norm_num)
    · exact absurd h (by simp)
  · exact absurd h (by simp)

/-- `_extract_numeric_cost` always returns a positive denominator. -/
theorem extract_den_pos (s : String) : 0 < (extract_numeric_cost s).den := by
  unfold extract_numeric_cost
  dsimp only
  split
  · exact Nat.one_pos
  · split
    · split
      · next h => exact pyFloat?_den_pos _ _ h
      · exact Nat.one_pos
    · split
      · split
        · next h => exact pyFloat?_den_pos _ _ h
        · exact Nat.one_pos
      · exact Nat.one_pos

/-- On inputs that contain no `%` and do not open with the fee bracket,
`_calculate_shipping_cost` reduces to the plain fixed-cost branch. -/
theorem calc_no_pct_no_fee (s : String) (ct : Option Frac)
    (hpct : containsSub "%" s = false)
    (hfee : "[fee ".toList.isPrefixOf s.toList = false)
    (h0 : ¬(s = "" ∨ s = "0")) :
    calculate_shipping_cost s ct =
      match pyFloat? (String.mk (removeChar ',' (removeChar '$' s.toList))) with
      | some v => Except.ok (formatDollar v)
      | none => Except.ok s := by
  unfold calculate_shipping_cost
  rw [if_neg h0, hfee]
  simp only [Bool.false_and, Bool.false_eq_true, if_false]
  unfold calcPercentOrFixed
  rw [hpct]
  simp only [Bool.false_eq_true, if_false]

/-- On inputs that contain a `%` and do not open with the fee bracket,
`_calculate_shipping_cost` reduces to the percentage branch. -/
theorem calc_pct_branch (s : String) (ct : Option Frac)
    (hpct : containsSub "%" s = true)
    (hfee : "[fee ".toList.isPrefixOf s.toList = false) :
    calculate_shipping_cost s ct =
      match ct with
      | none => Except.ok "Calculated at checkout"
      | some t =>
        match pyFloat? (String.mk (removeChar '%' s.toList)) with
        | none => Except.error ()
        | some percentage => Except.ok (formatDollar (t.mul percentage).div100) := by
  have h1 : s ≠ "" := by
    intro he
    rw [he] at hpct
    exact absurd hpct (by decide)
  have h2 : s ≠ "0" := by
    intro he
    rw [he] at hpct
    exact absurd hpct (by decide)
  unfold calculate_shipping_cost
  rw [if_neg (by tauto), hfee]
  simp only [Bool.false_and, Bool.false_eq_true, if_false]
  unfold calcPercentOrFixed
  rw [hpct]
  rfl

/-- A concrete quote used to instantiate the class-rate theorems. -/
def sampleQuote : Quote :=
  { method_id := "flat_rate", title := "Flat Rate", cost := "$5.00",
    cost_type := "fixed", raw_cost := "$5", description := "Flat Rate" }

/-! ### Claim theorems -/

/-- C1 counterexample: `_calculate_shipping_cost` is not total and does
not degrade unparsable input to `Fixed(0)`: on `"ab%"` with a cart total
it raises `ValueError` (`float("ab")`), and on `"abc"` it returns the
string unchanged rather than `"$0.00"`. -/
theorem calc_cost_raises_or_echoes_cex :
    calculate_shipping_cost "ab%" (some (Frac.ofInt 5)) = Except.error () ∧
    calculate_shipping_cost "abc" none = Except.ok "abc" ∧ "abc" ≠ "$0.00" := by
  refine ⟨by decide, by decide, by decide⟩

/-- C1 (amended): for raw cost strings containing no `%` character and
not opening the bracketed-fee form, `_calculate_shipping_cost` always
returns a result (never raises) for every cart total, and when the
numeric parse of the cleaned string fails the original string is
returned verbatim — not `Fixed(0)`. -/
theorem calc_cost_plain_total_amended (s : String) (ct : Option Frac)
    (hpct : containsSub "%" s = false)
    (hfee : "[fee ".toList.isPrefixOf s.toList = false) :
    ∃ r, calculate_shipping_cost s ct = Except.ok r ∧
      (pyFloat? (String.mk (removeChar ',' (removeChar '$' s.toList))) = none →
        ¬(s = "" ∨ s = "0") → r = s) := by
  by_cases h0 : s = "" ∨ s = "0"
  · refine ⟨"$0.00", ?_, fun _ hn => absurd h0 hn⟩
    unfold calculate_shipping_cost
    rw [if_pos h0]
  · have heq := calc_no_pct_no_fee s ct hpct hfee h0
    cases hp : pyFloat? (String.mk (removeChar ',' (removeChar '$' s.toList))) with
    | some v =>
      rw [hp] at heq
      exact ⟨formatDollar v, heq, fun hn _ => Option.noConfusion hn⟩
    | none =>
      rw [hp] at heq
      exact ⟨s, heq, fun _ _ => rfl⟩

/-- C1 witness: the amended theorem applied to the plain string `"abc"`. -/
theorem calc_cost_plain_total_witness :
    containsSub "%" "abc" = false ∧ "[fee ".toList.isPrefixOf "abc".toList = false ∧
    ∃ r, calculate_shipping_cost "abc" none = Except.ok r ∧
      (pyFloat? (String.mk (removeChar ',' (removeChar '$' "abc".toList))) = none →
        ¬("abc" = "" ∨ "abc" = "0") → r = "abc") :=
  ⟨by decide, by decide, calc_cost_plain_total_amended "abc" none (by decide) (by decide)⟩

/-- C2 counterexample: the synchronous `_postcode_matches_zone` returns
`False`, not `True`, for a zone with absent locations — the universal
behaviour asserted by the claim does not hold of the sync matcher. -/
theorem empty_locations_returns_false_cex :
    postcode_matches_zone "ABCD" (Zone.mk none "" []) = Except.ok false ∧
    postcode_matches_zone "ABCD" (Zone.mk none "" []) ≠ Except.ok true := by
  refine ⟨by decide, by decide⟩

/-- C2 (amended): for every postcode, a zone with absent or blank
`locations` does not match in the synchronous `_postcode_matches_zone`
(universal availability instead comes from the all-zones fallback of
`get_shipping_options`), while the async `_postcode_matches_zone`
returns `True` for empty locations. -/
theorem empty_locations_sync_false_amended (pc : String) (z : Zone)
    (h : z.locations = none ∨ ∃ s, z.locations = some s ∧ pyStrip s.toList = []) :
    postcode_matches_zone pc z = Except.ok false ∧
    ∀ locs : Option String, (locs = none ∨ locs = some "") →
      async_postcode_matches_zone pc locs = true := by
  constructor
  · rcases h with h | ⟨s, hs, hstrip⟩
    · unfold postcode_matches_zone
      rw [h]
    · unfold postcode_matches_zone
      rw [hs]
      dsimp only
      rw [if_pos (Or.inr hstrip)]
  · rintro locs (h | h) <;> subst h <;> rfl

/-- C2 witness: the amended theorem applied to a blank-locations zone
and the malformed postcode `"ABCD"`. -/
theorem empty_locations_sync_false_witness :
    ((Zone.mk (some "  ") "n" []).locations = none ∨
      ∃ s, (Zone.mk (some "  ") "n" []).locations = some s ∧ pyStrip s.toList = []) ∧
    (postcode_matches_zone "ABCD" (Zone.mk (some "  ") "n" []) = Except.ok false ∧
     ∀ locs : Option String, (locs = none ∨ locs = some "") →
       async_postcode_matches_zone "ABCD" locs = true) :=
  ⟨Or.inr ⟨"  ", rfl, by decide⟩,
   empty_locations_sync_false_amended "ABCD" _ (Or.inr ⟨"  ", rfl, by decide⟩)⟩

/-- C4: the bracketed fee `[fee percent="14" min_fee="30" max_fee="75"]`
evaluates to `$30.00` at cart total 100 (clamped up), `$75.00` at cart
total 1000 (clamped down), and to the range `$30.00 - $75.00` without a
cart total. -/
theorem fee_bracket_clamping_values :
    calculate_shipping_cost "[fee percent=\"14\" min_fee=\"30\" max_fee=\"75\"]"
        (some (Frac.ofInt 100)) = Except.ok "$30.00" ∧
    calculate_shipping_cost "[fee percent=\"14\" min_fee=\"30\" max_fee=\"75\"]"
        (some (Frac.ofInt 1000)) = Except.ok "$75.00" ∧
    calculate_shipping_cost "[fee percent=\"14\" min_fee=\"30\" max_fee=\"75\"]"
        none = Except.ok "$30.00 - $75.00" := by
  refine ⟨by decide, by decide, by decide⟩

/-- C5: a percentage string whose numeric part parses as `p` evaluates,
with cart total `T`, to the dollar-formatted `T * p / 100`, and without
a cart total to the literal `"Calculated at checkout"`. -/
theorem percentage_string_evaluation (s : String) (p T : Frac)
    (hpct : containsSub "%" s = true)
    (hfee : "[fee ".toList.isPrefixOf s.toList = false)
    (hp : pyFloat? (String.mk (removeChar '%' s.toList)) = some p) :
    calculate_shipping_cost s (some T) = Except.ok (formatDollar (T.mul p).div100) ∧
    calculate_shipping_cost s none = Except.ok "Calculated at checkout" := by
  constructor
  · rw [calc_pct_branch s (some T) hpct hfee]
    dsimp only
    rw [hp]
  · rw [calc_pct_branch s none hpct hfee]

/-- C5 witness: the theorem applied to `"10%"` with cart total 50,
yielding `$5.00`. -/
theorem percentage_string_evaluation_witness :
    containsSub "%" "10%" = true ∧
    "[fee ".toList.isPrefixOf "10%".toList = false ∧
    pyFloat? (String.mk (removeChar '%' "10%".toList)) = some ⟨10, 1⟩ ∧
    formatDollar ((Frac.mk 50 1).mul ⟨10, 1⟩).div100 = "$5.00" ∧
    (calculate_shipping_cost "10%" (some ⟨50, 1⟩) =
        Except.ok (formatDollar ((Frac.mk 50 1).mul ⟨10, 1⟩).div100) ∧
     calculate_shipping_cost "10%" none = Except.ok "Calculated at checkout") :=
  ⟨by decide, by decide, by decide, by decide,
   percentage_string_evaluation "10%" ⟨10, 1⟩ ⟨50, 1⟩ (by decide) (by decide) (by decide)⟩

/-- C7 counterexample: with the single class rate
`[fee percent="14" min_fee="30" max_fee="75"]` and no cart total, the
evaluated cost is the range `"$30.00 - $75.00"`, its lower bound 30 wins
the max-selection, and the quote receives the reformatted single value
`"$30.00"` — not the original range string as the claim asserts. -/
theorem range_winner_reformatted_cex :
    calculate_shipping_cost "[fee percent=\"14\" min_fee=\"30\" max_fee=\"75\"]" none =
      Except.ok "$30.00 - $75.00" ∧
    apply_class_rates sampleQuote [some "[fee percent=\"14\" min_fee=\"30\" max_fee=\"75\"]"]
        none =
      Except.ok { sampleQuote with cost := "$30.00", cost_type := "class_based" } ∧
    ("$30.00" : String) ≠ "$30.00 - $75.00" := by
  refine ⟨by decide, by decide, by decide⟩

/-- C7 (amended): max-selection compares the first number extracted from
each evaluated cost (the lower bound of a range; `0` for the
`"Calculated at checkout"` sentinel, which therefore can never win), and
the winning quote receives the dollar-formatted winning number — not the
original range or sentinel string. -/
theorem class_rate_lower_bound_amended (opt : Quote) (rates : List (Option String))
    (ct : Option Frac) (m : Frac) (hne : rates ≠ [])
    (hmax : max_class_cost rates ct (Frac.ofInt 0) = Except.ok m)
    (hpos : (Frac.ofInt 0).blt m = true) :
    apply_class_rates opt rates ct =
      Except.ok { opt with cost := formatDollar m, cost_type := "class_based" } ∧
    extract_numeric_cost "$30.00 - $75.00" = ⟨3000, 100⟩ ∧
    extract_numeric_cost "Calculated at checkout" = Frac.ofInt 0 := by
  refine ⟨?_, by decide, by decide⟩
  unfold apply_class_rates
  obtain ⟨a, as, rfl⟩ : ∃ a as, rates = a :: as := by
    cases rates with
    | nil => exact absurd rfl hne
    | cons a as => exact ⟨a, as, rfl⟩
  simp only [List.isEmpty_cons, Bool.false_eq_true, if_false]
  rw [hmax]
  dsimp only
  rw [hpos]
  rfl

/-- C7 witness: the amended theorem applied to the single rate `"$20"`. -/
theorem class_rate_lower_bound_witness :
    ([some "$20"] ≠ ([] : List (Option String))) ∧
    max_class_cost [some "$20"] none (Frac.ofInt 0) = Except.ok ⟨2000, 100⟩ ∧
    (Frac.ofInt 0).blt ⟨2000, 100⟩ = true ∧
    (apply_class_rates sampleQuote [some "$20"] none =
        Except.ok
          { sampleQuote with cost := formatDollar (Frac.mk 2000 100), cost_type := "class_based" } ∧
     extract_numeric_cost "$30.00 - $75.00" = ⟨3000, 100⟩ ∧
     extract_numeric_cost "Calculated at checkout" = Frac.ofInt 0) :=
  ⟨by decide, by decide, by decide,
   class_rate_lower_bound_amended sampleQuote [some "$20"] none ⟨2000, 100⟩
     (by decide) (by decide) (by decide)⟩

/-- C8 counterexample: a zone whose stored locations are not valid JSON
does not match (the sync matcher returns `False`, not `True`). -/
theorem malformed_locations_returns_false_cex :
    postcode_matches_zone "3000" (Zone.mk (some "not json") "x" []) = Except.ok false ∧
    postcode_matches_zone "3000" (Zone.mk (some "not json") "x" []) ≠ Except.ok true := by
  refine ⟨by decide, by decide⟩

/-- C8 (amended): for every postcode, a zone whose non-blank locations
fail to parse as JSON yields `False` from the synchronous
`_postcode_matches_zone` without raising (fail-closed at the matcher;
availability is restored only by the all-zones fallback). -/
theorem malformed_locations_sync_false_amended (pc : String) (z : Zone) (s : String)
    (hs : z.locations = some s) (hne : ¬(s = "" ∨ pyStrip s.toList = []))
    (hbad : parseLocations s = none) :
    postcode_matches_zone pc z = Except.ok false := by
  unfold postcode_matches_zone
  rw [hs]
  dsimp only
  rw [if_neg hne, hbad]

/-- C8 witness: the amended theorem applied to `"not json"`. -/
theorem malformed_locations_sync_false_witness :
    ¬("not json" = "" ∨ pyStrip "not json".toList = []) ∧
    parseLocations "not json" = none ∧
    postcode_matches_zone "3000" (Zone.mk (some "not json") "x" []) = Except.ok false :=
  ⟨by decide, by decide,
   malformed_locations_sync_false_amended "3000" _ "not json" rfl (by decide) (by decide)⟩

/-- C10: when the maximal evaluated class-rate value is not strictly
positive (every applicable rate evaluates to zero or extracts no
number), the quote is returned unchanged — base cost and cost type
untouched. -/
theorem zero_class_rate_keeps_base (opt : Quote) (rates : List (Option String))
    (ct : Option Frac) (m : Frac)
    (hmax : max_class_cost rates ct (Frac.ofInt 0) = Except.ok m)
    (hnpos : (Frac.ofInt 0).blt m = false) :
    apply_class_rates opt rates ct = Except.ok opt := by
  unfold apply_class_rates
  by_cases hr : rates.isEmpty = true
  · rw [if_pos hr]
  · rw [if_neg hr, hmax]
    dsimp only
    rw [hnpos]
    rfl

/-- C10 witness: the theorem applied to the single rate `"$0"`. -/
theorem zero_class_rate_keeps_base_witness :
    max_class_cost [some "$0"] none (Frac.ofInt 0) = Except.ok (Frac.ofInt 0) ∧
    (Frac.ofInt 0).blt (Frac.ofInt 0) = false ∧
    apply_class_rates sampleQuote [some "$0"] none = Except.ok sampleQuote :=
  ⟨by decide, by decide,
   zero_class_rate_keeps_base sampleQuote [some "$0"] none (Frac.ofInt 0)
     (by decide) (by decide)⟩

/-- When no zone matches the postcode, the matching loop collects
nothing. -/
theorem zonesMatching_nil_of_no_match (pc : String) (zs : List Zone)
    (h : ∀ z ∈ zs, postcode_matches_zone pc z = Except.ok false) :
    zonesMatching pc zs = Except.ok [] := by
  induction zs with
  | nil => rfl
  | cons z rest ih =>
    unfold zonesMatching
    rw [h z (List.mem_cons_self z rest)]
    dsimp only
    rw [ih (fun z' hz' => h z' (List.mem_cons_of_mem _ hz'))]
    rfl

/-- C3: when a destination postcode is supplied but matches none of the
site's zones, `get_shipping_options` quotes all zones — exactly the
quotes produced with no postcode at all (fail-open). -/
theorem no_zone_match_fail_open (zones : List Zone) (ct : Option Frac) (pc : String)
    (hzs : zones ≠ []) (hpc : pc ≠ "")
    (hnm : ∀ z ∈ zones, postcode_matches_zone pc z = Except.ok false) :
    get_shipping_options zones ct (some pc) = get_shipping_options zones ct none := by
  unfold get_shipping_options filterZones
  dsimp only
  rw [if_neg hpc, zonesMatching_nil_of_no_match pc zones hnm]
  rfl

/-- C3 witness: a one-zone site whose zone is restricted to postcode
3000 still quotes its method for the unmatched postcode 9999. -/
theorem no_zone_match_fail_open_witness :
    ([Zone.mk (some "[\x7b\"type\": \"postcode\", \"code\": \"3000\"\x7d]") "Melbourne"
        [Method.mk "flat_rate" "Flat Rate" true (CostSetting.direct "$10") none]] ≠
      ([] : List Zone)) ∧
    ("9999" : String) ≠ "" ∧
    (∀ z ∈ [Zone.mk (some "[\x7b\"type\": \"postcode\", \"code\": \"3000\"\x7d]") "Melbourne"
        [Method.mk "flat_rate" "Flat Rate" true (CostSetting.direct "$10") none]],
      postcode_matches_zone "9999" z = Except.ok false) ∧
    get_shipping_options
        [Zone.mk (some "[\x7b\"type\": \"postcode\", \"code\": \"3000\"\x7d]") "Melbourne"
          [Method.mk "flat_rate" "Flat Rate" true (CostSetting.direct "$10") none]]
        none (some "9999") =
      get_shipping_options
        [Zone.mk (some "[\x7b\"type\": \"postcode\", \"code\": \"3000\"\x7d]") "Melbourne"
          [Method.mk "flat_rate" "Flat Rate" true (CostSetting.direct "$10") none]]
        none none :=
  ⟨by decide, by decide, by decide,
   no_zone_match_fail_open _ none "9999" (by decide) (by decide) (by decide)⟩

/-- Upper-bound and growth property of the class-rate maximum loop,
generalized over the accumulator. -/
theorem max_class_cost_bound (ct : Option Frac) (rates : List (Option String)) :
    ∀ acc m : Frac, max_class_cost rates ct acc = Except.ok m → 0 < acc.den →
      (0 < m.den ∧ acc.val ≤ m.val ∧
       ∀ c r, some c ∈ rates → c ≠ "" → calculate_shipping_cost c ct = Except.ok r →
         (extract_numeric_cost r).val ≤ m.val) := by
  induction rates with
  | nil =>
    intro acc m h hd
    unfold max_class_cost at h
    cases h
    exact ⟨hd, le_refl _, fun c r hmem => absurd hmem (by simp)⟩
  | cons r0 rest ih =>
    intro acc m h hd
    unfold max_class_cost at h
    cases r0 with
    | none =>
      dsimp only at h
      obtain ⟨h1, h2, h3⟩ := ih acc m h hd
      refine ⟨h1, h2, fun c r hmem hc hcalc => ?_⟩
      rcases List.mem_cons.mp hmem with heq | hmem'
      · exact Option.noConfusion heq
      · exact h3 c r hmem' hc hcalc
    | some c0 =>
      dsimp only at h
      by_cases hc0 : c0 = ""
      · rw [if_neg (not_not_intro hc0)] at h
        obtain ⟨h1, h2, h3⟩ := ih acc m h hd
        refine ⟨h1, h2, fun c r hmem hc hcalc => ?_⟩
        rcases List.mem_cons.mp hmem with heq | hmem'
        · exact absurd (by rw [Option.some.inj heq, hc0]) hc
        · exact h3 c r hmem' hc hcalc
      · rw [if_pos hc0] at h
        cases hcalc0 : calculate_shipping_cost c0 ct with
        | error e => rw [hcalc0] at h; exact absurd h (by simp)
        | ok cost =>
          rw [hcalc0] at h
          dsimp only at h
          set v := extract_numeric_cost cost with hv
          have hvd : 0 < v.den := extract_den_pos cost
          have hacc' : 0 < (if acc.blt v then v else acc).den := by
            by_cases hb : acc.blt v = true
            · rw [if_pos hb]; exact hvd
            · rw [if_neg hb]; exact hd
          obtain ⟨h1, h2, h3⟩ := ih _ m h hacc'
          have hle_acc : acc.val ≤ (if acc.blt v then v else acc).val := by
            by_cases hb : acc.blt v = true
            · rw [if_pos hb]
              exact le_of_lt ((Frac.blt_iff acc v hd hvd).mp hb)
            · rw [if_neg hb]
          have hle_v : v.val ≤ (if acc.blt v then v else acc).val := by
            by_cases hb : acc.blt v = true
            · rw [if_pos hb]
            · rw [if_neg hb]
              exact le_of_not_lt (fun hlt => hb ((Frac.blt_iff acc v hd hvd).mpr hlt))
          refine ⟨h1, le_trans hle_acc h2, fun c r hmem hc hcalc => ?_⟩
          rcases List.mem_cons.mp hmem with heq | hmem'
          · have hcc : c = c0 := Option.some.inj heq
            rw [hcc, hcalc0] at hcalc
            have : r = cost := (Except.ok.inj hcalc).symm
            rw [this, ← hv]
            exact le_trans hle_v h2
          · exact h3 c r hmem' hc hcalc

/-- One successful step of the class-rate maximum loop. -/
theorem max_class_cost_cons_ok (c : String) (rest : List (Option String)) (ct : Option Frac)
    (acc : Frac) (cost : String) (hc : c ≠ "")
    (hcalc : calculate_shipping_cost c ct = Except.ok cost) :
    max_class_cost (some c :: rest) ct acc =
      max_class_cost rest ct
        (if acc.blt (extract_numeric_cost cost) then extract_numeric_cost cost else acc) := by
  conv_lhs => unfold max_class_cost
  dsimp only
  rw [if_pos hc, hcalc]

/-- C6: with class rates `$20` and `$35` the quote cost becomes
`$35.00` for every cart total, and in general every applicable class
rate's extracted value is bounded by the selected maximum. -/
theorem class_rate_max_selection :
    (∀ (opt : Quote) (ct : Option Frac),
      apply_class_rates opt [some "$20", some "$35"] ct =
        Except.ok { opt with cost := "$35.00", cost_type := "class_based" }) ∧
    (∀ (rates : List (Option String)) (ct : Option Frac) (m : Frac) (c r : String),
      max_class_cost rates ct (Frac.ofInt 0) = Except.ok m →
      some c ∈ rates → c ≠ "" → calculate_shipping_cost c ct = Except.ok r →
      (extract_numeric_cost r).val ≤ m.val) := by
  constructor
  · intro opt ct
    have h20 : calculate_shipping_cost "$20" ct = Except.ok "$20.00" := by
      rw [calc_no_pct_no_fee "$20" ct (by decide) (by decide) (by decide)]
      decide
    have h35 : calculate_shipping_cost "$35" ct = Except.ok "$35.00" := by
      rw [calc_no_pct_no_fee "$35" ct (by decide) (by decide) (by decide)]
      decide
    have hmax : max_class_cost [some "$20", some "$35"] ct (Frac.ofInt 0) =
        Except.ok ⟨3500, 100⟩ := by
      rw [max_class_cost_cons_ok "$20" [some "$35"] ct (Frac.ofInt 0) "$20.00" (by decide) h20]
      rw [show (if (Frac.ofInt 0).blt (extract_numeric_cost "$20.00") then
            extract_numeric_cost "$20.00" else Frac.ofInt 0) = Frac.mk 2000 100 from by decide]
      rw [max_class_cost_cons_ok "$35" [] ct (Frac.mk 2000 100) "$35.00" (by decide) h35]
      rw [show (if (Frac.mk 2000 100).blt (extract_numeric_cost "$35.00") then
            extract_numeric_cost "$35.00" else Frac.mk 2000 100) = Frac.mk 3500 100 from by decide]
      rfl
    unfold apply_class_rates
    rw [if_neg (by decide), hmax]
    dsimp only
    rw [show (Frac.ofInt 0).blt ⟨3500, 100⟩ = true from by decide]
    rw [if_pos rfl]
    rw [show formatDollar (Frac.mk 3500 100) = "$35.00" from by decide]
  · intro rates ct m c r hmax hmem hc hcalc
    exact (max_class_cost_bound ct rates (Frac.ofInt 0) m hmax (by decide)).2.2
      c r hmem hc hcalc

/-- C6 witness: the theorem instantiated at the two-rate example and at
the `$20` rate of that example. -/
theorem class_rate_max_selection_witness :
    (apply_class_rates sampleQuote [some "$20", some "$35"] none =
      Except.ok { sampleQuote with cost := "$35.00", cost_type := "class_based" }) ∧
    max_class_cost [some "$20", some "$35"] none (Frac.ofInt 0) = Except.ok ⟨3500, 100⟩ ∧
    some "$20" ∈ [some "$20", some "$35"] ∧ ("$20" : String) ≠ "" ∧
    calculate_shipping_cost "$20" none = Except.ok "$20.00" ∧
    (extract_numeric_cost "$20.00").val ≤ (Frac.mk 3500 100).val :=
  ⟨class_rate_max_selection.1 sampleQuote none, by decide, by decide, by decide, by decide,
   class_rate_max_selection.2 [some "$20", some "$35"] none ⟨3500, 100⟩ "$20" "$20.00"
     (by decide) (by decide) (by decide) (by decide)⟩

/-- Every quote built for a method list comes from one of its members. -/
theorem quotesForMethods_mem (ct : Option Frac) (ms : List Method) :
    ∀ qs : List Quote, quotesForMethods ct ms = Except.ok qs →
      ∀ q ∈ qs, ∃ m ∈ ms, methodQuote ct m = Except.ok q := by
  induction ms with
  | nil =>
    intro qs h q hq
    unfold quotesForMethods at h
    injection h with h2
    subst h2
    simp at hq
  | cons m rest ih =>
    intro qs h q hq
    unfold quotesForMethods at h
    cases hm : methodQuote ct m with
    | error e => rw [hm] at h; exact absurd h (by simp)
    | ok q0 =>
      rw [hm] at h
      dsimp only at h
      cases hr : quotesForMethods ct rest with
      | error e => rw [hr] at h; exact absurd h (by simp)
      | ok qs0 =>
        rw [hr] at h
        dsimp only at h
        injection h with h2
        subst h2
        rcases List.mem_cons.mp hq with rfl | hq2
        · exact ⟨m, List.mem_cons_self m rest, hm⟩
        · obtain ⟨m2, hm2, hq3⟩ := ih qs0 hr q hq2
          exact ⟨m2, List.mem_cons_of_mem _ hm2, hq3⟩

/-- Every quote assembled over a zone list comes from an enabled method
of one of its zones. -/
theorem quotesForZones_mem (ct : Option Frac) (zs : List Zone) :
    ∀ qs : List Quote, quotesForZones ct zs = Except.ok qs →
      ∀ q ∈ qs, ∃ z ∈ zs, ∃ m ∈ z.methods, m.enabled = true ∧ methodQuote ct m = Except.ok q := by
  induction zs with
  | nil =>
    intro qs h q hq
    unfold quotesForZones at h
    injection h with h2
    subst h2
    simp at hq
  | cons z rest ih =>
    intro qs h q hq
    unfold quotesForZones at h
    cases h1 : quotesForMethods ct (z.methods.filter (fun m => m.enabled)) with
    | error e => rw [h1] at h; exact absurd h (by simp)
    | ok qs1 =>
      rw [h1] at h
      dsimp only at h
      cases h2 : quotesForZones ct rest with
      | error e => rw [h2] at h; exact absurd h (by simp)
      | ok qs2 =>
        rw [h2] at h
        dsimp only at h
        injection h with h3
        subst h3
        rcases List.mem_append.mp hq with hq1 | hq2
        · obtain ⟨m, hmf, hq3⟩ := quotesForMethods_mem ct _ qs1 h1 q hq1
          have hm2 := List.mem_filter.mp hmf
          exact ⟨z, List.mem_cons_self z rest, m, hm2.1, by simpa using hm2.2, hq3⟩
        · obtain ⟨z2, hz2, m, hm2, he, hq3⟩ := ih qs2 h2 q hq2
          exact ⟨z2, List.mem_cons_of_mem _ hz2, m, hm2, he, hq3⟩

/-- The matching loop only collects zones of its input. -/
theorem zonesMatching_mem (pc : String) (zs : List Zone) :
    ∀ out, zonesMatching pc zs = Except.ok out → ∀ z ∈ out, z ∈ zs := by
  induction zs with
  | nil =>
    intro out h z hz
    unfold zonesMatching at h
    injection h with h2
    subst h2
    simp at hz
  | cons z0 rest ih =>
    intro out h z hz
    unfold zonesMatching at h
    cases hm : postcode_matches_zone pc z0 with
    | error e => rw [hm] at h; exact absurd h (by simp)
    | ok b =>
      rw [hm] at h
      dsimp only at h
      cases hr : zonesMatching pc rest with
      | error e => rw [hr] at h; exact absurd h (by simp)
      | ok out0 =>
        rw [hr] at h
        dsimp only at h
        injection h with h2
        subst h2
        by_cases hb : b = true
        · rw [if_pos hb] at hz
          rcases List.mem_cons.mp hz with rfl | hz2
          · exact List.mem_cons_self _ _
          · exact List.mem_cons_of_mem _ (ih out0 hr z hz2)
        · rw [if_neg hb] at hz
          exact List.mem_cons_of_mem _ (ih out0 hr z hz)

/-- The zone filter (with its all-zones fallback) only returns zones of
its input. -/
theorem filterZones_mem (pc : Option String) (zones : List Zone) :
    ∀ out, filterZones pc zones = Except.ok out → ∀ z ∈ out, z ∈ zones := by
  intro out h z hz
  unfold filterZones at h
  cases pc with
  | none =>
    dsimp only at h
    injection h with h2
    subst h2
    exact hz
  | some p =>
    dsimp only at h
    by_cases hp : p = ""
    · rw [if_pos hp] at h
      injection h with h2
      subst h2
      exact hz
    · rw [if_neg hp] at h
      cases hm : zonesMatching p zones with
      | error e => rw [hm] at h; exact absurd h (by simp)
      | ok matching =>
        rw [hm] at h
        dsimp only at h
        injection h with h2
        subst h2
        by_cases hmt : matching.isEmpty = true
        · rw [if_pos hmt] at hz
          exact hz
        · rw [if_neg hmt] at hz
          exact zonesMatching_mem p zones matching hm z hz

/-- C9: disabled methods never contribute a quote, neither in the sync
`get_shipping_options` (for any zones, cart total and postcode) nor in
the async `_get_default_shipping_options`. -/
theorem disabled_methods_never_quoted :
    (∀ (zones : List Zone) (ct : Option Frac) (pc : Option String) (qs : List Quote),
      get_shipping_options zones ct pc = Except.ok qs →
      ∀ q ∈ qs, ∃ z ∈ zones, ∃ m ∈ z.methods, m.enabled = true ∧
        methodQuote ct m = Except.ok q) ∧
    (∀ (zones : List AsyncZone) (q : Quote), q ∈ async_default_shipping_options zones →
      ∃ z ∈ zones, ∃ m ∈ z.methods, m.enabled = true ∧ q = async_default_option m) := by
  constructor
  · intro zones ct pc qs h q hq
    unfold get_shipping_options at h
    cases hf : filterZones pc zones with
    | error e => rw [hf] at h; exact absurd h (by simp)
    | ok zs =>
      rw [hf] at h
      dsimp only at h
      obtain ⟨z, hz, m, hm, he, hq2⟩ := quotesForZones_mem ct zs qs h q hq
      exact ⟨z, filterZones_mem pc zones zs hf z hz, m, hm, he, hq2⟩
  · intro zones q hq
    unfold async_default_shipping_options at hq
    rw [List.mem_flatten] at hq
    obtain ⟨l, hl, hql⟩ := hq
    rw [List.mem_map] at hl
    obtain ⟨z, hz, rfl⟩ := hl
    rw [List.mem_map] at hql
    obtain ⟨m, hm, rfl⟩ := hql
    have hm2 := List.mem_filter.mp hm
    exact ⟨z, List.take_subset 3 zones hz, m, hm2.1, by simpa using hm2.2, rfl⟩

/-- C9 witness: a zone with one enabled and one disabled method quotes
only the enabled one, and the theorem applies to that output. -/
theorem disabled_methods_never_quoted_witness :
    get_shipping_options
        [Zone.mk none "z1"
          [Method.mk "flat_rate" "Flat Rate" true (CostSetting.direct "$10") none,
           Method.mk "pickup" "Pickup" false (CostSetting.direct "$0") none]] none none =
      Except.ok [Quote.mk "flat_rate" "Flat Rate" "$10.00" "fixed" "$10" "Flat Rate"] ∧
    ∀ q ∈ [Quote.mk "flat_rate" "Flat Rate" "$10.00" "fixed" "$10" "Flat Rate"],
      ∃ z ∈ [Zone.mk none "z1"
          [Method.mk "flat_rate" "Flat Rate" true (CostSetting.direct "$10") none,
           Method.mk "pickup" "Pickup" false (CostSetting.direct "$0") none]],
        ∃ m ∈ z.methods, m.enabled = true ∧ methodQuote none m = Except.ok q :=
  ⟨by decide, disabled_methods_never_quoted.1 _ none none _ (by decide)⟩

end Shipping
